import Mathlib

/-!
# Verification of the property discovery and engagement subsystem

Shallow embedding of `properties/views.py` (PropertyViewSet: `get_queryset`,
`track_view`, `inquire`, `get_client_ip`) of the nyumbapaeasy-home repository,
together with the framework semantics the code invokes (queryset filtering,
`get_or_create`, the ordering/search filter backends) and — where the
repository file is absent from the sources — models built from the
specification, marked as such in their doc comments.

Numeric fields (price, area, rating, timestamps) are embedded as `Int`;
a raw query-string bound is parsed with `parseIntStr` as the embedding of
the query layer's numeric conversion.  String splitting, trimming,
lowercasing and parsing are implemented here by structural recursion over
`String.data` with the same behaviour as the library routines the Python
code uses, so that every definition evaluates.
-/

/-- A `Property` record of the listing store (`properties/models.py` fields
as used by `views.py` and described by the data model of the spec). -/
structure Property where
  id : Nat
  title : String
  description : String
  location : String
  category : String
  price_type : String
  price : Int
  area : Int
  bedrooms : Nat
  bathrooms : Nat
  agent : Nat
  is_available : Bool
  is_featured : Bool
  is_verified : Bool
  rating : Int
  created_at : Int
  deriving Repr, DecidableEq

/-- A `PropertyView` engagement record: identified by (property, ip_address),
carrying the user agent captured at creation. -/
structure PropertyView where
  property : Nat
  ip_address : String
  user_agent : String
  deriving Repr, DecidableEq

/-- A `PropertyInquiry` record: bound to one property, with inquirer fields,
a lifecycle status and server-assigned id / timestamp. -/
structure PropertyInquiry where
  id : Nat
  property : Nat
  name : String
  email : String
  phone : String
  message : String
  status : String
  created_at : Int
  deriving Repr, DecidableEq

/-- The query parameters of a search request, as read by `get_queryset` and
the filter backends.  The four range bounds are kept as raw strings because
`get_queryset` reads them raw from `request.query_params`; the exact-match
filterset parameters are embedded already parsed (their conversion is done by
the external validation collaborator, out of scope per the spec). -/
structure SearchParams where
  category : Option String := none
  price_type : Option String := none
  bedrooms : Option Nat := none
  bathrooms : Option Nat := none
  agent : Option Nat := none
  is_featured : Option Bool := none
  is_verified : Option Bool := none
  searchTerm : Option String := none
  ordering : Option String := none
  min_price : Option String := none
  max_price : Option String := none
  min_area : Option String := none
  max_area : Option String := none
  deriving Repr, DecidableEq

/-- Split a list of characters at every occurrence of a separator
character (the pieces, in order, separators dropped). -/
def splitCharAux (c : Char) : List Char → List Char → List (List Char)
  | [], acc => [acc.reverse]
  | x :: xs, acc =>
    if x = c then acc.reverse :: splitCharAux c xs []
    else splitCharAux c xs (x :: acc)

/-- Python's `s.split(c)` for a one-character separator: the empty string
yields `[""]`, and adjacent separators yield empty pieces. -/
def splitOnChar (c : Char) (s : String) : List String :=
  (splitCharAux c s.data []).map String.mk

/-- The whitespace characters stripped by Python's `str.strip()`. -/
def isSpaceChar (ch : Char) : Bool :=
  ch = ' ' || ch = '\t' || ch = '\n' || ch = '\r'

/-- Python's `str.strip()`: whitespace removed from both ends. -/
def trimStr (s : String) : String :=
  String.mk (((s.data.dropWhile isSpaceChar).reverse.dropWhile
    isSpaceChar).reverse)

/-- Lowercase an ASCII letter (the case folding relevant to the embedded
text fields). -/
def lowerChar (ch : Char) : Char :=
  if 65 ≤ ch.toNat && ch.toNat ≤ 90 then Char.ofNat (ch.toNat + 32) else ch

/-- Case folding of a whole string. -/
def lowerStr (s : String) : String :=
  String.mk (s.data.map lowerChar)

/-- The value of a decimal digit character, if it is one. -/
def digitVal (ch : Char) : Option Nat :=
  if 48 ≤ ch.toNat && ch.toNat ≤ 57 then some (ch.toNat - 48) else none

/-- Left-to-right accumulation of decimal digits; any non-digit aborts. -/
def parseNatAux : List Char → Nat → Option Nat
  | [], acc => some acc
  | ch :: rest, acc =>
    match digitVal ch with
    | none => none
    | some d => parseNatAux rest (acc * 10 + d)

/-- The numeric conversion the query layer applies to a raw bound string
(Django's conversion of a filter value, embedded as integer parsing): an
optional minus sign followed by one or more decimal digits; anything else —
including the empty string — fails. -/
def parseIntStr (s : String) : Option Int :=
  match s.data with
  | [] => none
  | '-' :: rest =>
    if rest.isEmpty then none
    else (parseNatAux rest 0).map (fun n => -(n : Int))
  | l => (parseNatAux l 0).map (fun n => (n : Int))

/-- Python truthiness of `request.query_params.get(...)`: `None` and the
empty string are falsy. -/
def truthy : Option String → Bool
  | none => false
  | some s => s ≠ ""

/-- `get_client_ip` of `PropertyViewSet`: first entry of a truthy
`X-Forwarded-For` comma-separated list, else `REMOTE_ADDR`. -/
def get_client_ip (x_forwarded_for : Option String) (remote_addr : String) : String :=
  if truthy x_forwarded_for then
    (splitOnChar (Char.ofNat 44) (x_forwarded_for.getD "")).headI
  else
    remote_addr

/-- Failure of the query layer when a raw range bound cannot be converted to
a number (`properties/views.py` passes the raw string into the queryset
filter; an unparseable value surfaces as an unhandled error, not as a
field-keyed validation response). -/
inductive QueryError where
  | invalidLiteral (field : String) (value : String)
  deriving Repr, DecidableEq

/-- One conditional range filter of `get_queryset`: skipped when the raw
parameter is falsy (absent or empty), otherwise the value is converted by the
query layer ([invalid → unhandled error]) and applied with the given
inclusive comparison. -/
def applyBound (fieldName : String) (fieldVal : Property → Int)
    (cmp : Int → Int → Bool) (bound : Option String)
    (qs : List Property) : Except QueryError (List Property) :=
  if truthy bound then
    match parseIntStr (bound.getD "") with
    | none => .error (.invalidLiteral fieldName (bound.getD ""))
    | some v => .ok (qs.filter (fun p => cmp (fieldVal p) v))
  else
    .ok qs

/-- `PropertyViewSet.get_queryset`: the base `is_available=True` predicate,
then the four conditional range filters in source order. -/
def get_queryset (store : List Property) (params : SearchParams) :
    Except QueryError (List Property) := do
  let qs := store.filter (fun p => p.is_available)
  let qs ← applyBound "min_price" (fun p => p.price) (fun x v => v ≤ x)
    params.min_price qs
  let qs ← applyBound "max_price" (fun p => p.price) (fun x v => x ≤ v)
    params.max_price qs
  let qs ← applyBound "min_area" (fun p => p.area) (fun x v => v ≤ x)
    params.min_area qs
  let qs ← applyBound "max_area" (fun p => p.area) (fun x v => x ≤ v)
    params.max_area qs
  return qs

/-- Equality against an optional exact-match filter value: an absent
parameter imposes no constraint. -/
def matchOpt {α : Type} [DecidableEq α] (o : Option α) (x : α) : Bool :=
  match o with
  | none => true
  | some v => v = x

/-- The DjangoFilterBackend narrowing for the declared `filterset_fields`
(category, price_type, bedrooms, bathrooms, agent, is_featured,
is_verified): each supplied parameter filters by equality. -/
def filtersetFilter (params : SearchParams) (qs : List Property) :
    List Property :=
  qs.filter (fun p =>
    matchOpt params.category p.category &&
    matchOpt params.price_type p.price_type &&
    matchOpt params.bedrooms p.bedrooms &&
    matchOpt params.bathrooms p.bathrooms &&
    matchOpt params.agent p.agent &&
    matchOpt params.is_featured p.is_featured &&
    matchOpt params.is_verified p.is_verified)

/-- Is the first character list a prefix of the second. -/
def isPrefixList : List Char → List Char → Bool
  | [], _ => true
  | _ :: _, [] => false
  | x :: xs, y :: ys => x = y && isPrefixList xs ys

/-- Does the second character list contain the first as a contiguous
sublist. -/
def containsSub (needle : List Char) : List Char → Bool
  | [] => needle.isEmpty
  | x :: rest => isPrefixList needle (x :: rest) || containsSub needle rest

/-- Case-insensitive substring occurrence (the `icontains` lookup used by
the search backend). -/
def containsCI (haystack needle : String) : Bool :=
  containsSub (lowerStr needle).data (lowerStr haystack).data

/-- The SearchFilter terms: the raw parameter with commas replaced by
blanks, split on blanks, empty pieces dropped. -/
def searchTerms (s : String) : List String :=
  (splitOnChar (Char.ofNat 32) (String.mk (s.data.map (fun ch => if ch = Char.ofNat 44 then Char.ofNat 32 else ch)))).filter (fun t => t ≠ "")

/-- SearchFilter narrowing over the declared `search_fields` (title,
description, location): each term must occur, case-insensitively, in at
least one of the three fields. -/
def searchFilter (params : SearchParams) (qs : List Property) :
    List Property :=
  match params.searchTerm with
  | none => qs
  | some s =>
    qs.filter (fun p =>
      (searchTerms s).all (fun t =>
        containsCI p.title t || containsCI p.description t ||
        containsCI p.location t))

/-- The declared `ordering_fields` of the viewset. -/
def ordering_fields : List String := ["price", "created_at", "rating", "area"]

/-- Split an ordering term into its field name and its descending flag
(a leading minus sign). -/
def stripDash (s : String) : String × Bool :=
  match s.data with
  | List.cons ch rest => if ch = Char.ofNat 45 then (String.mk rest, true) else (s, false)
  | List.nil => (s, false)

/-- OrderingFilter's removal of invalid ordering terms: a term survives
exactly when its field name is a declared ordering field. -/
def removeInvalidFields (fields : List String) : List String :=
  fields.filter (fun f => ordering_fields.contains (stripDash f).1)

/-- OrderingFilter.get_ordering: a truthy `ordering` parameter is split on
commas, stripped, and stripped of invalid terms; when nothing survives (or
the parameter is absent) the viewset default `['-created_at']` applies. -/
def get_ordering (o : Option String) : List String :=
  if truthy o then
    let fields := ((splitOnChar (Char.ofNat 44) (o.getD "")).map trimStr)
    let valid := removeInvalidFields fields
    if valid.isEmpty then ["-created_at"] else valid
  else
    ["-created_at"]

/-- The sortable field values (`order_by` keys). -/
def orderKeyVal (p : Property) : String → Int
  | "price" => p.price
  | "created_at" => p.created_at
  | "rating" => p.rating
  | "area" => p.area
  | _ => 0

/-- Lexicographic comparison along a list of ordering terms, honouring the
descending prefix; ties fall through to the next term. -/
def cmpKeys : List String → Property → Property → Bool
  | [], _, _ => true
  | k :: ks, p, q =>
    let fd := stripDash k
    let a := orderKeyVal p fd.1
    let b := orderKeyVal q fd.1
    if a = b then cmpKeys ks p q
    else if fd.2 then decide (b ≤ a) else decide (a ≤ b)

/-- Insertion into a sorted list under a boolean relation (the embedding of
the store's stable sort). -/
def insertSorted (r : Property → Property → Bool) (x : Property) :
    List Property → List Property
  | [] => [x]
  | y :: ys => if r x y then x :: y :: ys else y :: insertSorted r x ys

/-- Stable insertion sort under a boolean relation. -/
def sortBy (r : Property → Property → Bool) : List Property → List Property
  | [] => []
  | x :: xs => insertSorted r x (sortBy r xs)

/-- The full list endpoint of `PropertyViewSet`: `get_queryset`, then the
three declared filter backends in order (filterset, search, ordering). -/
def list_properties (store : List Property) (params : SearchParams) :
    Except QueryError (List Property) := do
  let qs ← get_queryset store params
  return sortBy (cmpKeys (get_ordering params.ordering))
    (searchFilter params (filtersetFilter params qs))

/-- The detail-route object resolution (`self.get_object()`): look the
primary key up in the availability-filtered queryset of the viewset; a miss
is a NotFound (404).  The `track_view` and `inquire` requests carry no
search query parameters, so the range filters of `get_queryset` are all
skipped and resolution happens over `store.filter is_available`. -/
def get_object (store : List Property) (pk : Nat) : Option Property :=
  (store.filter (fun p => p.is_available)).find? (fun p => p.id = pk)

/-- The lookup key of `get_or_create`: does a view record carry the given
(property, ip_address) pair. -/
def pairPred (pid : Nat) (ip : String) (v : PropertyView) : Bool :=
  v.property = pid && v.ip_address = ip

/-- Django's `QuerySet.get_or_create(property=.., ip_address=.., defaults=
\x7b user_agent \x7d)` as called by `track_view`: when a record with the given
(property, ip_address) exists, return the store unchanged; otherwise append
a new record whose user_agent comes from `defaults`. -/
def get_or_create (views : List PropertyView) (pid : Nat)
    (ip ua : String) : List PropertyView :=
  if views.any (pairPred pid ip) then views
  else views ++ [⟨pid, ip, ua⟩]

/-- Outcome of a `track_view` request. -/
inductive TrackResult where
  | notFound
  | tracked
  deriving Repr, DecidableEq

/-- `PropertyViewSet.track_view`: resolve the listing through the
availability-filtered queryset (404 on miss), compute the attribution ip
with `get_client_ip`, then `get_or_create` the (property, ip) view record;
the response is `'view tracked'` in every non-404 case. -/
def track_view (store : List Property) (views : List PropertyView)
    (pk : Nat) (x_forwarded_for : Option String) (remote_addr : String)
    (user_agent : String) : TrackResult × List PropertyView :=
  match get_object store pk with
  | none => (.notFound, views)
  | some p =>
    (.tracked, get_or_create views p.id
      (get_client_ip x_forwarded_for remote_addr) user_agent)

/-- Repeated `track_view` calls with a fixed listing / ip and a list of
user agents, threading the view store; returns the responses in call order
with the final store. -/
def track_view_many (store : List Property) (views : List PropertyView)
    (pk : Nat) (x_forwarded_for : Option String) (remote_addr : String) :
    List String → List TrackResult × List PropertyView
  | [] => ([], views)
  | ua :: uas =>
    let step := track_view store views pk x_forwarded_for remote_addr ua
    let tail := track_view_many store step.2 pk x_forwarded_for remote_addr uas
    (step.1 :: tail.1, tail.2)

/-- Inquirer-supplied fields of an inquiry submission. -/
structure InquiryInput where
  name : String
  email : String
  phone : String
  message : String
  deriving Repr, DecidableEq

/-- Modelled from the spec: `PropertyInquirySerializer` and the
`PropertyInquiry` model (`properties/serializers.py` and
`properties/models.py` are not among the sources).  Per the spec, all
required inquirer fields must be present and well-formed (contact fields
non-empty) and validation failures are reported per-field; this model
yields, for each blank required field, one error entry keyed by that
field. -/
def inquiry_errors (d : InquiryInput) : List (String × String) :=
  (if d.name = "" then [("name", "This field is required.")] else []) ++
  (if d.email = "" then [("email", "This field is required.")] else []) ++
  (if d.phone = "" then [("phone", "This field is required.")] else []) ++
  (if d.message = "" then [("message", "This field is required.")] else [])

/-- Modelled from the spec: the server-assigned identifier of a newly
persisted inquiry (the `PropertyInquiry` model is not among the sources);
ids are assigned sequentially by the store. -/
def next_inquiry_id (inqs : List PropertyInquiry) : Nat :=
  inqs.length + 1

/-- Outcome of an `inquire` request. -/
inductive InquireResult where
  | notFound
  | created (record : PropertyInquiry)
  | badRequest (errors : List (String × String))
  deriving Repr, DecidableEq

/-- `PropertyViewSet.inquire`: resolve the listing through the
availability-filtered queryset (404 on miss); validate the submitted fields
with the serializer; on success persist one `PropertyInquiry` bound to the
resolved listing with the initial status `submitted` (status default
modelled from the spec, the model file being absent from the sources) and
return the created record (201); on failure persist nothing and return the
field-keyed errors (400). -/
def inquire (store : List Property) (inqs : List PropertyInquiry)
    (now : Int) (pk : Nat) (d : InquiryInput) :
    InquireResult × List PropertyInquiry :=
  match get_object store pk with
  | none => (.notFound, inqs)
  | some p =>
    if inquiry_errors d = [] then
      let r : PropertyInquiry :=
        ⟨next_inquiry_id inqs, p.id, d.name, d.email, d.phone, d.message,
          "submitted", now⟩
      (.created r, inqs ++ [r])
    else
      (.badRequest (inquiry_errors d), inqs)

/-- The number of view records stored for a (property, ip) pair. -/
def countPair (views : List PropertyView) (pid : Nat) (ip : String) : Nat :=
  (views.filter (pairPred pid ip)).length

/-- Existence test for a (property, ip) pair (the read phase of
`get_or_create`). -/
def pairExists (views : List PropertyView) (pid : Nat) (ip : String) : Bool :=
  views.any (pairPred pid ip)

/-- Modelled from the spec: the storage layer's atomic insert under the
uniqueness constraint on (property, ip_address) — the constraint is declared
on the `PropertyView` model (`properties/models.py`, not among the sources);
per the spec it is evaluated atomically at the storage layer.  The result
flag tells whether a row was inserted; `false` is the conflict case, which
`get_or_create` absorbs by returning the existing row as success. -/
def insert_if_absent (views : List PropertyView) (pid : Nat)
    (ip ua : String) : List PropertyView × Bool :=
  if pairExists views pid ip then (views, false)
  else (views ++ [⟨pid, ip, ua⟩], true)

/-- Progress of one in-flight `get_or_create` call: not yet started its
read, read done (with the existence answer it observed), returned success,
or returned an error. -/
inductive CallPhase where
  | start
  | decided (found : Bool)
  | succeeded
  | failed
  deriving Repr, DecidableEq

/-- One atomic step of an in-flight `get_or_create` call over the shared
store: the read phase records whether the pair existed; the write phase
returns at once when it was found, and otherwise performs the storage
layer's atomic conditional insert — a conflicting insert (another call got
there first) is absorbed and still reported as success.  A finished call
steps to itself. -/
def stepCall (pid : Nat) (ip ua : String) (views : List PropertyView) :
    CallPhase → List PropertyView × CallPhase
  | .start => (views, .decided (pairExists views pid ip))
  | .decided found =>
    if found then (views, .succeeded)
    else
      let r := insert_if_absent views pid ip ua
      (r.1, .succeeded)
  | ph => (views, ph)

/-- Shared state of two interleaved `track_view` calls for the same
(property, ip) pair. -/
structure RaceState where
  views : List PropertyView
  first : CallPhase
  second : CallPhase
  deriving Repr, DecidableEq

/-- One scheduling decision: step the first call (`true`) or the second. -/
def raceStep (pid : Nat) (ip uaA uaB : String) (st : RaceState)
    (chooseFirst : Bool) : RaceState :=
  if chooseFirst then
    let r := stepCall pid ip uaA st.views st.first
    { st with views := r.1, first := r.2 }
  else
    let r := stepCall pid ip uaB st.views st.second
    { st with views := r.1, second := r.2 }

/-- Run the two interleaved calls under an arbitrary schedule. -/
def runRace (pid : Nat) (ip uaA uaB : String) (st : RaceState) :
    List Bool → RaceState
  | [] => st
  | c :: cs => runRace pid ip uaA uaB (raceStep pid ip uaA uaB st c) cs

/-- What one conditional range filter of `get_queryset` leaves invariant on
a surviving record: the comparison holds whenever the raw bound is truthy
and convertible; an absent, empty or unconvertible bound constrains
nothing (the unconvertible case never coexists with a successful query). -/
def boundHolds (cmp : Int → Int → Bool) (x : Int) : Option String → Bool
  | none => true
  | some s =>
    if s = "" then true
    else
      match parseIntStr s with
      | none => true
      | some v => cmp x v

/-- The claim's own wording of the range-filter condition (spec side, kept
separate from the source-derived `get_queryset` so the two can be compared):
each supplied and convertible bound is an inclusive, independent constraint,
and an omitted bound constrains nothing on its side. -/
def specBoundsSat (params : SearchParams) (p : Property) : Prop :=
  (∀ s v, params.min_price = some s → parseIntStr s = some v → v ≤ p.price) ∧
  (∀ s v, params.max_price = some s → parseIntStr s = some v → p.price ≤ v) ∧
  (∀ s v, params.min_area = some s → parseIntStr s = some v → v ≤ p.area) ∧
  (∀ s v, params.max_area = some s → parseIntStr s = some v → p.area ≤ v)

/-- Soundness of one call's phase against the shared store: a call never
ends in an error, and once it has observed or established the record, the
store holds at least one row for the pair. -/
def phaseOk (views : List PropertyView) (pid : Nat) (ip : String) :
    CallPhase → Prop
  | .failed => False
  | .decided found => found = true → 1 ≤ countPair views pid ip
  | .succeeded => 1 ≤ countPair views pid ip
  | .start => True

/-- Invariant of the two-call race: at most one row for the contended pair,
and both calls are phase-sound. -/
def raceInv (pid : Nat) (ip : String) (st : RaceState) : Prop :=
  countPair st.views pid ip ≤ 1 ∧
  phaseOk st.views pid ip st.first ∧
  phaseOk st.views pid ip st.second

/-- A sample available listing (the spec's scenario listing P101). -/
def p101 : Property :=
  { id := 101, title := "Sunny House", description := "Three bedrooms",
    location := "Lilongwe", category := "house", price_type := "sale",
    price := 250000, area := 1200, bedrooms := 3, bathrooms := 2,
    agent := 7, is_available := true, is_featured := false,
    is_verified := true, rating := 4, created_at := 10 }

/-- A sample unavailable listing. -/
def p102 : Property :=
  { p101 with id := 102, is_available := false, price := 90000 }

/-- A second sample available listing, newer and cheaper than `p101`. -/
def p103 : Property :=
  { p101 with id := 103, price := 80000, area := 600, created_at := 20 }

/-! ## Helper lemmas -/

theorem mem_insertSorted (r : Property → Property → Bool) (x a : Property)
    (l : List Property) : a ∈ insertSorted r x l ↔ a = x ∨ a ∈ l := by
  induction l with
  | nil => simp [insertSorted]
  | cons y ys ih =>
    by_cases hr : r x y = true
    · simp [insertSorted, hr]
    · simp only [insertSorted, if_neg hr, List.mem_cons, ih]
      tauto

theorem mem_sortBy (r : Property → Property → Bool) (a : Property)
    (l : List Property) : a ∈ sortBy r l ↔ a ∈ l := by
  induction l with
  | nil => simp [sortBy]
  | cons x xs ih => simp [sortBy, mem_insertSorted, ih]

theorem mem_filtersetFilter_sub (params : SearchParams) (qs : List Property)
    (p : Property) (h : p ∈ filtersetFilter params qs) : p ∈ qs :=
  (List.mem_filter.mp h).1

theorem mem_searchFilter_sub (params : SearchParams) (qs : List Property)
    (p : Property) (h : p ∈ searchFilter params qs) : p ∈ qs := by
  unfold searchFilter at h
  cases hs : params.searchTerm with
  | none => rw [hs] at h; exact h
  | some s => rw [hs] at h; exact (List.mem_filter.mp h).1

theorem mem_applyBound {fn : String} {fv : Property → Int}
    {cmp : Int → Int → Bool} {bound : Option String}
    {qs res : List Property}
    (h : applyBound fn fv cmp bound qs = .ok res) (p : Property) :
    p ∈ res ↔ p ∈ qs ∧ boundHolds cmp (fv p) bound = true := by
  unfold applyBound at h
  cases bound with
  | none =>
    simp only [truthy, Bool.false_eq_true, if_false] at h
    cases h
    simp [boundHolds]
  | some s =>
    by_cases hs : s = ""
    · subst hs
      simp only [truthy, ne_eq, not_true_eq_false, decide_False,
        Bool.false_eq_true, if_false] at h
      cases h
      simp [boundHolds]
    · simp only [truthy, ne_eq, hs, not_false_eq_true, decide_True,
        if_true, Option.getD_some] at h
      cases hv : parseIntStr s with
      | none => rw [hv] at h; cases h
      | some v =>
        rw [hv] at h
        cases h
        simp [boundHolds, hs, hv, List.mem_filter]

theorem applyBound_ok_parses {fn : String} {fv : Property → Int}
    {cmp : Int → Int → Bool} {s : String} {qs res : List Property}
    (h : applyBound fn fv cmp (some s) qs = .ok res) (hs : s ≠ "") :
    parseIntStr s ≠ none := by
  unfold applyBound at h
  simp only [truthy, ne_eq, hs, not_false_eq_true, decide_True, if_true,
    Option.getD_some] at h
  intro hv
  rw [hv] at h
  cases h

theorem get_queryset_ok_iff {store : List Property} {params : SearchParams}
    {res : List Property} (h : get_queryset store params = .ok res)
    (p : Property) :
    p ∈ res ↔ p ∈ store ∧ p.is_available = true ∧
      boundHolds (fun x v => v ≤ x) p.price params.min_price = true ∧
      boundHolds (fun x v => x ≤ v) p.price params.max_price = true ∧
      boundHolds (fun x v => v ≤ x) p.area params.min_area = true ∧
      boundHolds (fun x v => x ≤ v) p.area params.max_area = true := by
  unfold get_queryset at h
  simp only [bind, Except.bind] at h
  cases h1 : applyBound "min_price" (fun p => p.price) (fun x v => v ≤ x)
      params.min_price (store.filter (fun p => p.is_available)) with
  | error e => rw [h1] at h; cases h
  | ok q1 =>
    rw [h1] at h
    dsimp only at h
    cases h2 : applyBound "max_price" (fun p => p.price) (fun x v => x ≤ v)
        params.max_price q1 with
    | error e => rw [h2] at h; cases h
    | ok q2 =>
      rw [h2] at h
      dsimp only at h
      cases h3 : applyBound "min_area" (fun p => p.area) (fun x v => v ≤ x)
          params.min_area q2 with
      | error e => rw [h3] at h; cases h
      | ok q3 =>
        rw [h3] at h
        dsimp only at h
        cases h4 : applyBound "max_area" (fun p => p.area) (fun x v => x ≤ v)
            params.max_area q3 with
        | error e => rw [h4] at h; cases h
        | ok q4 =>
          rw [h4] at h
          simp only [pure, Except.pure, Except.ok.injEq] at h
          subst h
          rw [mem_applyBound h4, mem_applyBound h3, mem_applyBound h2,
            mem_applyBound h1, List.mem_filter]
          tauto

theorem boundHolds_iff (cmp : Int → Int → Bool) (x : Int) (b : Option String) :
    boundHolds cmp x b = true ↔
      ∀ s v, b = some s → parseIntStr s = some v → cmp x v = true := by
  cases b with
  | none => simp [boundHolds]
  | some s =>
    constructor
    · intro hb s1 v h1 h2
      injection h1 with h1
      subst h1
      unfold boundHolds at hb
      dsimp only at hb
      have hs : s ≠ "" := by
        intro he
        subst he
        rw [show parseIntStr "" = none from rfl] at h2
        cases h2
      rw [if_neg hs, h2] at hb
      exact hb
    · intro hall
      unfold boundHolds
      dsimp only
      by_cases hs : s = ""
      · rw [if_pos hs]
      · rw [if_neg hs]
        cases hv : parseIntStr s with
        | none => rfl
        | some v => exact hall s v rfl hv

theorem boundHolds_ge_iff (x : Int) (b : Option String) :
    boundHolds (fun x v => v ≤ x) x b = true ↔
      ∀ s v, b = some s → parseIntStr s = some v → v ≤ x := by
  rw [boundHolds_iff]
  constructor <;> intro h s v h1 h2
  · simpa using h s v h1 h2
  · simpa using h s v h1 h2

theorem boundHolds_le_iff (x : Int) (b : Option String) :
    boundHolds (fun x v => x ≤ v) x b = true ↔
      ∀ s v, b = some s → parseIntStr s = some v → x ≤ v := by
  rw [boundHolds_iff]
  constructor <;> intro h s v h1 h2
  · simpa using h s v h1 h2
  · simpa using h s v h1 h2

theorem get_queryset_ok_parses {store : List Property}
    {params : SearchParams} {res : List Property}
    (h : get_queryset store params = .ok res) :
    ∀ b ∈ [params.min_price, params.max_price, params.min_area,
      params.max_area], ∀ s, b = some s → s ≠ "" → parseIntStr s ≠ none := by
  unfold get_queryset at h
  simp only [bind, Except.bind] at h
  cases h1 : applyBound "min_price" (fun p => p.price) (fun x v => v ≤ x)
      params.min_price (store.filter (fun p => p.is_available)) with
  | error e => rw [h1] at h; cases h
  | ok q1 =>
    rw [h1] at h
    dsimp only at h
    cases h2 : applyBound "max_price" (fun p => p.price) (fun x v => x ≤ v)
        params.max_price q1 with
    | error e => rw [h2] at h; cases h
    | ok q2 =>
      rw [h2] at h
      dsimp only at h
      cases h3 : applyBound "min_area" (fun p => p.area) (fun x v => v ≤ x)
          params.min_area q2 with
      | error e => rw [h3] at h; cases h
      | ok q3 =>
        rw [h3] at h
        dsimp only at h
        cases h4 : applyBound "max_area" (fun p => p.area)
            (fun x v => x ≤ v) params.max_area q3 with
        | error e => rw [h4] at h; cases h
        | ok q4 =>
          intro b hb s hbs hsne
          fin_cases hb
          · rw [hbs] at h1; exact applyBound_ok_parses h1 hsne
          · rw [hbs] at h2; exact applyBound_ok_parses h2 hsne
          · rw [hbs] at h3; exact applyBound_ok_parses h3 hsne
          · rw [hbs] at h4; exact applyBound_ok_parses h4 hsne

theorem applyBound_skip {fn : String} {fv : Property → Int}
    {cmp : Int → Int → Bool} {qs : List Property} (b : Option String)
    (hb : truthy b = false) : applyBound fn fv cmp b qs = .ok qs := by
  unfold applyBound
  rw [hb]
  simp

theorem countPair_eq_zero_iff (views : List PropertyView) (pid : Nat)
    (ip : String) :
    countPair views pid ip = 0 ↔ pairExists views pid ip = false := by
  unfold countPair pairExists
  rw [List.length_eq_zero, List.filter_eq_nil_iff]
  constructor
  · intro h
    rw [← Bool.not_eq_true, List.any_eq_true]
    rintro ⟨v, hv, hp⟩
    exact h v hv hp
  · intro h v hv hp
    rw [← Bool.not_eq_true, List.any_eq_true] at h
    exact h ⟨v, hv, hp⟩

theorem pairExists_true_iff (views : List PropertyView) (pid : Nat)
    (ip : String) :
    pairExists views pid ip = true ↔ 1 ≤ countPair views pid ip := by
  constructor
  · intro h
    by_contra hlt
    have h0 : countPair views pid ip = 0 := by omega
    rw [countPair_eq_zero_iff] at h0
    rw [h0] at h
    cases h
  · intro h
    by_contra hne
    have hf : pairExists views pid ip = false := by
      cases hx : pairExists views pid ip
      · rfl
      · exact absurd hx hne
    rw [← countPair_eq_zero_iff] at hf
    omega

theorem countPair_append_single (views : List PropertyView) (pid : Nat)
    (ip ua : String) :
    countPair (views ++ [⟨pid, ip, ua⟩]) pid ip = countPair views pid ip + 1 := by
  unfold countPair
  rw [List.filter_append]
  have : List.filter (pairPred pid ip) [⟨pid, ip, ua⟩] = [⟨pid, ip, ua⟩] := by
    simp [pairPred]
  rw [this, List.length_append]
  rfl

theorem insert_if_absent_count (views : List PropertyView) (pid : Nat)
    (ip ua : String) :
    countPair (insert_if_absent views pid ip ua).1 pid ip =
      max 1 (countPair views pid ip) := by
  unfold insert_if_absent
  cases hx : pairExists views pid ip
  · have h0 : countPair views pid ip = 0 := by
      rw [countPair_eq_zero_iff]; exact hx
    rw [if_neg (by decide : ¬ (false = true))]
    dsimp only
    rw [countPair_append_single, h0]
    omega
  · have h1 : 1 ≤ countPair views pid ip := (pairExists_true_iff _ _ _).mp hx
    rw [if_pos (rfl : true = true)]
    dsimp only
    omega

theorem phaseOk_mono {views views' : List PropertyView} {pid : Nat}
    {ip : String} (ph : CallPhase)
    (h : countPair views pid ip ≤ countPair views' pid ip)
    (hph : phaseOk views pid ip ph) : phaseOk views' pid ip ph := by
  cases ph with
  | start => trivial
  | decided found =>
    intro hf
    exact le_trans (hph hf) h
  | succeeded => exact le_trans hph h
  | failed => exact hph.elim

theorem countPair_le_stepCall (pid : Nat) (ip ua : String)
    (views : List PropertyView) (ph : CallPhase) :
    countPair views pid ip ≤ countPair (stepCall pid ip ua views ph).1 pid ip := by
  cases ph with
  | start => exact le_refl _
  | decided found =>
    cases found with
    | false =>
      show countPair views pid ip ≤
        countPair (insert_if_absent views pid ip ua).1 pid ip
      rw [insert_if_absent_count]
      omega
    | true => exact le_refl _
  | succeeded => exact le_refl _
  | failed => exact le_refl _

theorem stepCall_ok (pid : Nat) (ip ua : String) (views : List PropertyView)
    (ph : CallPhase) (hc : countPair views pid ip ≤ 1)
    (hph : phaseOk views pid ip ph) :
    countPair (stepCall pid ip ua views ph).1 pid ip ≤ 1 ∧
    phaseOk (stepCall pid ip ua views ph).1 pid ip
      (stepCall pid ip ua views ph).2 := by
  cases ph with
  | start =>
    refine ⟨hc, ?_⟩
    intro hf
    exact (pairExists_true_iff _ _ _).mp hf
  | decided found =>
    cases found with
    | false =>
      have hcount : countPair (insert_if_absent views pid ip ua).1 pid ip =
          max 1 (countPair views pid ip) := insert_if_absent_count _ _ _ _
      constructor
      · show countPair (insert_if_absent views pid ip ua).1 pid ip ≤ 1
        omega
      · show 1 ≤ countPair (insert_if_absent views pid ip ua).1 pid ip
        omega
    | true => exact ⟨hc, hph rfl⟩
  | succeeded => exact ⟨hc, hph⟩
  | failed => exact hph.elim

theorem raceInv_step (pid : Nat) (ip uaA uaB : String) (st : RaceState)
    (c : Bool) (h : raceInv pid ip st) :
    raceInv pid ip (raceStep pid ip uaA uaB st c) := by
  obtain ⟨hc, h1, h2⟩ := h
  cases c with
  | true =>
    have hs := stepCall_ok pid ip uaA st.views st.first hc h1
    have hm := countPair_le_stepCall pid ip uaA st.views st.first
    exact ⟨hs.1, hs.2, phaseOk_mono st.second hm h2⟩
  | false =>
    have hs := stepCall_ok pid ip uaB st.views st.second hc h2
    have hm := countPair_le_stepCall pid ip uaB st.views st.second
    exact ⟨hs.1, phaseOk_mono st.first hm h1, hs.2⟩

theorem raceInv_run (pid : Nat) (ip uaA uaB : String) :
    ∀ (sched : List Bool) (st : RaceState), raceInv pid ip st →
      raceInv pid ip (runRace pid ip uaA uaB st sched) := by
  intro sched
  induction sched with
  | nil => intro st h; exact h
  | cons c cs ih =>
    intro st h
    exact ih _ (raceInv_step pid ip uaA uaB st c h)

theorem track_view_found {store : List Property} {pk : Nat} {p : Property}
    (views : List PropertyView) (xff : Option String) (ra ua : String)
    (hp : get_object store pk = some p) :
    track_view store views pk xff ra ua =
      (.tracked, get_or_create views p.id (get_client_ip xff ra) ua) := by
  unfold track_view
  rw [hp]

theorem get_or_create_existing {views : List PropertyView} {pid : Nat}
    {ip : String} (ua : String) (v0 : PropertyView)
    (hf : views.filter (pairPred pid ip) = [v0]) :
    get_or_create views pid ip ua = views := by
  unfold get_or_create
  rw [if_pos]
  rw [List.any_eq_true]
  have hv0 : v0 ∈ views.filter (pairPred pid ip) := by
    rw [hf]; exact List.mem_singleton.mpr rfl
  rw [List.mem_filter] at hv0
  exact ⟨v0, hv0.1, hv0.2⟩

theorem track_view_many_stable (store : List Property) (pk : Nat)
    (xff : Option String) (ra : String) (p : Property)
    (hp : get_object store pk = some p) (v0 : PropertyView) :
    ∀ (uas : List String) (w : List PropertyView),
      w.filter (pairPred p.id (get_client_ip xff ra)) = [v0] →
      (track_view_many store w pk xff ra uas).2.filter
          (pairPred p.id (get_client_ip xff ra)) = [v0] ∧
      ∀ r ∈ (track_view_many store w pk xff ra uas).1,
        r = TrackResult.tracked := by
  intro uas
  induction uas with
  | nil =>
    intro w hw
    exact ⟨hw, by intro r hr; cases hr⟩
  | cons ua uas ih =>
    intro w hw
    have hstep : track_view store w pk xff ra ua = (.tracked, w) := by
      rw [track_view_found w xff ra ua hp,
        get_or_create_existing ua v0 hw]
    unfold track_view_many
    rw [hstep]
    dsimp only
    obtain ⟨h1, h2⟩ := ih w hw
    refine ⟨h1, ?_⟩
    intro r hr
    rcases List.mem_cons.mp hr with hr | hr
    · exact hr
    · exact h2 r hr

theorem get_or_create_fresh {views : List PropertyView} {pid : Nat}
    {ip : String} (ua : String)
    (hf : countPair views pid ip = 0) :
    get_or_create views pid ip ua = views ++ [⟨pid, ip, ua⟩] := by
  unfold get_or_create
  rw [if_neg]
  rw [countPair_eq_zero_iff] at hf
  unfold pairExists at hf
  rw [hf]
  exact Bool.false_ne_true

theorem filter_append_fresh {views : List PropertyView} {pid : Nat}
    {ip : String} (ua : String) (hf : countPair views pid ip = 0) :
    (views ++ [(⟨pid, ip, ua⟩ : PropertyView)]).filter (pairPred pid ip) =
      [(⟨pid, ip, ua⟩ : PropertyView)] := by
  rw [List.filter_append]
  have h1 : views.filter (pairPred pid ip) = [] := by
    unfold countPair at hf
    exact List.length_eq_zero.mp hf
  rw [h1]
  simp [pairPred]

theorem get_ordering_none : get_ordering none = ["-created_at"] := rfl

theorem get_ordering_all_invalid (s : String)
    (hinv : ∀ f ∈ (splitOnChar (Char.ofNat 44) s).map trimStr,
      (stripDash f).1 ∉ ordering_fields) :
    get_ordering (some s) = ["-created_at"] := by
  unfold get_ordering
  by_cases hs : s = ""
  · subst hs
    rw [if_neg (by decide : ¬ (truthy (some "") = true))]
  · rw [if_pos (by simp [truthy, hs])]
    dsimp only
    simp only [Option.getD_some]
    have hempty : removeInvalidFields ((splitOnChar (Char.ofNat 44) s).map trimStr) = [] := by
      unfold removeInvalidFields
      rw [List.filter_eq_nil_iff]
      intro f hf
      intro hcontains
      exact hinv f hf (List.elem_iff.mp hcontains)
    rw [hempty]
    rfl

theorem get_queryset_update_ordering (store : List Property)
    (params : SearchParams) (o : Option String) :
    get_queryset store { params with ordering := o } =
      get_queryset store params := by
  rcases params with ⟨c, pt, bd, bt, ag, ft, vf, sterm, od, mnp, mxp, mna, mxa⟩
  rfl

theorem filtersetFilter_update_ordering (params : SearchParams)
    (o : Option String) (qs : List Property) :
    filtersetFilter { params with ordering := o } qs =
      filtersetFilter params qs := by
  rcases params with ⟨c, pt, bd, bt, ag, ft, vf, sterm, od, mnp, mxp, mna, mxa⟩
  rfl

theorem searchFilter_update_ordering (params : SearchParams)
    (o : Option String) (qs : List Property) :
    searchFilter { params with ordering := o } qs =
      searchFilter params qs := by
  rcases params with ⟨c, pt, bd, bt, ag, ft, vf, sterm, od, mnp, mxp, mna, mxa⟩
  rfl

theorem get_object_unavailable {store : List Property} {p : Property}
    {pk : Nat} (hunavail : p.is_available = false)
    (hid : ∀ q ∈ store, q.id = pk → q = p) :
    get_object store pk = none := by
  unfold get_object
  rw [List.find?_eq_none]
  intro q hq hqid
  rw [List.mem_filter] at hq
  have hq2 : q.is_available = true := by simpa using hq.2
  have hqe : q = p := hid q hq.1 (by simpa using hqid)
  rw [hqe, hunavail] at hq2
  cases hq2

theorem list_properties_ok_elim {store : List Property}
    {params : SearchParams} {res : List Property}
    (h : list_properties store params = .ok res) :
    ∃ qs, get_queryset store params = .ok qs ∧ ∀ p ∈ res, p ∈ qs := by
  unfold list_properties at h
  simp only [bind, Except.bind] at h
  cases hq : get_queryset store params with
  | error e => rw [hq] at h; cases h
  | ok qs =>
    rw [hq] at h
    dsimp only at h
    simp only [pure, Except.pure, Except.ok.injEq] at h
    subst h
    refine ⟨qs, rfl, ?_⟩
    intro p hp
    rw [mem_sortBy] at hp
    exact mem_filtersetFilter_sub params qs p (mem_searchFilter_sub params _ p hp)

/-! ## Claim theorems -/

/-- C1: for every search invocation that succeeds, every `Property` in the
returned sequence has `is_available = true`, whatever caller-supplied
filters are present — the availability predicate is applied unconditionally
before any user filter, so an unavailable listing never appears in search
results. -/
theorem C1_search_results_available (store : List Property)
    (params : SearchParams) (res : List Property)
    (h : list_properties store params = .ok res) :
    ∀ p ∈ res, p.is_available = true := by
  intro p hp
  obtain ⟨qs, hq, hsub⟩ := list_properties_ok_elim h
  exact ((get_queryset_ok_iff hq p).mp (hsub p hp)).2.1

/-- Witness for C1: a concrete store holding an unavailable listing, which
the search omits while every returned listing is available. -/
theorem C1_search_results_available_witness :
    list_properties [p101, p102, p103] {} = .ok [p103, p101] ∧
      ∀ p ∈ [p103, p101], p.is_available = true :=
  ⟨rfl, C1_search_results_available [p101, p102, p103] {} [p103, p101] rfl⟩

/-- C5: for every search whose range bounds the query layer accepts,
membership in the `get_queryset` result is exactly: in the store, available,
and satisfying every supplied bound inclusively (`specBoundsSat`, the
claim's wording) — so omitted bounds impose no constraint on their side,
and the full search pipeline returns only bound-satisfying listings. -/
theorem C5_range_bounds_inclusive_independent (store : List Property)
    (params : SearchParams) :
    (∀ res, get_queryset store params = .ok res →
      ∀ p, p ∈ res ↔
        p ∈ store ∧ p.is_available = true ∧ specBoundsSat params p) ∧
    (∀ res, list_properties store params = .ok res →
      ∀ p ∈ res, specBoundsSat params p) := by
  have hmain : ∀ res, get_queryset store params = .ok res →
      ∀ p, p ∈ res ↔
        p ∈ store ∧ p.is_available = true ∧ specBoundsSat params p := by
    intro res h p
    rw [get_queryset_ok_iff h p]
    unfold specBoundsSat
    rw [boundHolds_ge_iff p.price, boundHolds_le_iff p.price,
      boundHolds_ge_iff p.area, boundHolds_le_iff p.area]
  refine ⟨hmain, ?_⟩
  intro res h p hp
  obtain ⟨qs, hq, hsub⟩ := list_properties_ok_elim h
  exact ((hmain qs hq p).mp (hsub p hp)).2.2

/-- Witness for C5: the spec's scenario — price 250000 falls inside
[200000, 300000], and the filtered store keeps exactly that listing. -/
theorem C5_range_bounds_witness :
    (get_queryset [p101, p102, p103]
        { min_price := some "200000", max_price := some "300000" } =
      .ok [p101]) ∧
    (∀ res, get_queryset [p101, p102, p103]
        { min_price := some "200000", max_price := some "300000" } = .ok res →
      ∀ p, p ∈ res ↔ p ∈ [p101, p102, p103] ∧ p.is_available = true ∧
        specBoundsSat
          { min_price := some "200000", max_price := some "300000" } p) :=
  ⟨rfl, (C5_range_bounds_inclusive_independent [p101, p102, p103]
    { min_price := some "200000", max_price := some "300000" }).1⟩

/-- C2: view tracking is idempotent per (listing, ip): with the listing
resolvable and no prior record for the pair, N ≥ 1 `track_view` calls leave
exactly one `PropertyView` for the pair, its stored user_agent is the first
call's even when later calls supply different ones, and every call responds
with the same success. -/
theorem C2_track_view_idempotent (store : List Property)
    (views : List PropertyView) (pk : Nat) (xff : Option String)
    (ra ua0 : String) (uas : List String) (p : Property)
    (hp : get_object store pk = some p)
    (hfresh : countPair views p.id (get_client_ip xff ra) = 0) :
    (track_view_many store views pk xff ra (ua0 :: uas)).2.filter
        (pairPred p.id (get_client_ip xff ra)) =
      [(⟨p.id, get_client_ip xff ra, ua0⟩ : PropertyView)] ∧
    countPair (track_view_many store views pk xff ra (ua0 :: uas)).2
        p.id (get_client_ip xff ra) = 1 ∧
    ∀ r ∈ (track_view_many store views pk xff ra (ua0 :: uas)).1,
      r = TrackResult.tracked := by
  have hstep : track_view store views pk xff ra ua0 =
      (.tracked, views ++ [(⟨p.id, get_client_ip xff ra, ua0⟩ :
        PropertyView)]) := by
    rw [track_view_found views xff ra ua0 hp, get_or_create_fresh ua0 hfresh]
  have hfilter := filter_append_fresh ua0 hfresh
  have hstable := track_view_many_stable store pk xff ra p hp
    ⟨p.id, get_client_ip xff ra, ua0⟩ uas
    (views ++ [(⟨p.id, get_client_ip xff ra, ua0⟩ : PropertyView)]) hfilter
  unfold track_view_many
  rw [hstep]
  dsimp only
  refine ⟨hstable.1, ?_, ?_⟩
  · unfold countPair
    rw [hstable.1]
    rfl
  · intro r hr
    rcases List.mem_cons.mp hr with hr | hr
    · exact hr
    · exact hstable.2 r hr

/-- Witness for C2: two calls from ip 10.0.0.5 with different user agents
leave one record carrying the first user agent, both calls succeeding. -/
theorem C2_track_view_idempotent_witness :
    (get_object [p101] 101 = some p101 ∧
      countPair [] p101.id (get_client_ip none "10.0.0.5") = 0) ∧
    ((track_view_many [p101] [] 101 none "10.0.0.5"
        ("agentA" :: ["agentB"])).2.filter
        (pairPred p101.id (get_client_ip none "10.0.0.5")) =
      [(⟨p101.id, get_client_ip none "10.0.0.5", "agentA"⟩ :
        PropertyView)] ∧
     countPair (track_view_many [p101] [] 101 none "10.0.0.5"
        ("agentA" :: ["agentB"])).2 p101.id
        (get_client_ip none "10.0.0.5") = 1 ∧
     ∀ r ∈ (track_view_many [p101] [] 101 none "10.0.0.5"
        ("agentA" :: ["agentB"])).1, r = TrackResult.tracked) :=
  ⟨⟨rfl, rfl⟩, C2_track_view_idempotent [p101] [] 101 none "10.0.0.5"
    "agentA" ["agentB"] p101 rfl rfl⟩

/-- C8: the attribution ip is the first entry of the comma-separated
`X-Forwarded-For` value when that header is present and non-empty, and the
direct connection address (`REMOTE_ADDR`) otherwise. -/
theorem C8_client_ip_resolution (s ra : String) :
    (s ≠ "" → get_client_ip (some s) ra =
      (splitOnChar (Char.ofNat 44) s).headI) ∧
    get_client_ip (some "") ra = ra ∧
    get_client_ip none ra = ra := by
  refine ⟨?_, rfl, rfl⟩
  intro hs
  unfold get_client_ip
  rw [if_pos (by simp [truthy, hs])]
  rfl

/-- Witness for C8: a proxied request resolves to the first listed address;
an empty or missing header falls back to the connection address. -/
theorem C8_client_ip_resolution_witness :
    get_client_ip (some "1.2.3.4, 5.6.7.8") "9.9.9.9" = "1.2.3.4" ∧
    get_client_ip (some "") "9.9.9.9" = "9.9.9.9" ∧
    get_client_ip none "9.9.9.9" = "9.9.9.9" :=
  ⟨by
    rw [(C8_client_ip_resolution "1.2.3.4, 5.6.7.8" "9.9.9.9").1
      (by decide)]
    rfl,
   (C8_client_ip_resolution "" "9.9.9.9").2.1,
   (C8_client_ip_resolution "x" "9.9.9.9").2.2⟩

/-- C6: an inquiry submission on a resolvable listing with a missing
required field persists nothing — the inquiry store is returned unchanged —
and the response carries the full validation-error set, whose keys are
exactly the offending (blank) fields.  The serializer is modelled from the
spec, its source file being absent. -/
theorem C6_invalid_inquiry_rejected (store : List Property)
    (inqs : List PropertyInquiry) (now : Int) (pk : Nat)
    (d : InquiryInput) (p : Property)
    (hp : get_object store pk = some p)
    (hbad : inquiry_errors d ≠ []) :
    inquire store inqs now pk d = (.badRequest (inquiry_errors d), inqs) ∧
    ∀ f, f ∈ (inquiry_errors d).map Prod.fst ↔
      ((f = "name" ∧ d.name = "") ∨ (f = "email" ∧ d.email = "") ∨
       (f = "phone" ∧ d.phone = "") ∨ (f = "message" ∧ d.message = "")) := by
  constructor
  · unfold inquire
    rw [hp]
    dsimp only
    rw [if_neg hbad]
  · intro f
    unfold inquiry_errors
    by_cases h1 : d.name = "" <;> by_cases h2 : d.email = "" <;>
      by_cases h3 : d.phone = "" <;> by_cases h4 : d.message = "" <;>
      simp [h1, h2, h3, h4]

/-- Witness for C6: a blank phone field yields the single error keyed by
"phone" and leaves the inquiry store empty. -/
theorem C6_invalid_inquiry_rejected_witness :
    (get_object [p101] 101 = some p101 ∧
      inquiry_errors ⟨"Bob", "bob@x.mw", "", "hello"⟩ ≠ []) ∧
    (inquire [p101] [] 5 101 (⟨"Bob", "bob@x.mw", "", "hello"⟩ :
        InquiryInput) =
      (.badRequest (inquiry_errors ⟨"Bob", "bob@x.mw", "", "hello"⟩), []) ∧
     ∀ f, f ∈ (inquiry_errors
        (⟨"Bob", "bob@x.mw", "", "hello"⟩ : InquiryInput)).map Prod.fst ↔
      ((f = "name" ∧ ("Bob" : String) = "") ∨
       (f = "email" ∧ ("bob@x.mw" : String) = "") ∨
       (f = "phone" ∧ ("" : String) = "") ∨
       (f = "message" ∧ ("hello" : String) = ""))) :=
  ⟨⟨rfl, by decide⟩, C6_invalid_inquiry_rejected [p101] [] 5 101
    ⟨"Bob", "bob@x.mw", "", "hello"⟩ p101 rfl (by decide)⟩

/-- C7: an inquiry submission on a resolvable listing with every field
valid persists exactly one new `PropertyInquiry`, bound to the resolved
listing, in the initial status "submitted", with the server-assigned id and
timestamp, and returns that created record.  Serializer and model defaults
are modelled from the spec, their source files being absent. -/
theorem C7_valid_inquiry_created (store : List Property)
    (inqs : List PropertyInquiry) (now : Int) (pk : Nat)
    (d : InquiryInput) (p : Property)
    (hp : get_object store pk = some p)
    (hok : inquiry_errors d = []) :
    inquire store inqs now pk d =
      (.created ⟨next_inquiry_id inqs, p.id, d.name, d.email, d.phone,
        d.message, "submitted", now⟩,
       inqs ++ [(⟨next_inquiry_id inqs, p.id, d.name, d.email, d.phone,
        d.message, "submitted", now⟩ : PropertyInquiry)]) := by
  unfold inquire
  rw [hp]
  dsimp only
  rw [if_pos hok]

/-- Witness for C7: a fully valid inquiry on the scenario listing creates
the single record with status "submitted". -/
theorem C7_valid_inquiry_created_witness :
    (get_object [p101] 101 = some p101 ∧
      inquiry_errors ⟨"Bob", "bob@x.mw", "099000000", "hello"⟩ = []) ∧
    inquire [p101] [] 5 101
        (⟨"Bob", "bob@x.mw", "099000000", "hello"⟩ : InquiryInput) =
      (.created ⟨next_inquiry_id [], p101.id, "Bob", "bob@x.mw",
        "099000000", "hello", "submitted", 5⟩,
       [] ++ [(⟨next_inquiry_id [], p101.id, "Bob", "bob@x.mw",
        "099000000", "hello", "submitted", 5⟩ : PropertyInquiry)]) :=
  ⟨⟨rfl, by decide⟩, C7_valid_inquiry_created [p101] [] 5 101
    ⟨"Bob", "bob@x.mw", "099000000", "hello"⟩ p101 rfl (by decide)⟩

/-- C10: a listing that exists but has `is_available = false` cannot be
resolved by the availability-filtered queryset the detail actions share
with search, so `track_view` and `inquire` both answer NotFound and write
nothing. -/
theorem C10_unavailable_gates_engagement (store : List Property)
    (views : List PropertyView) (inqs : List PropertyInquiry) (now : Int)
    (pk : Nat) (xff : Option String) (ra ua : String) (d : InquiryInput)
    (p : Property) (hmem : p ∈ store) (hunavail : p.is_available = false)
    (hid : ∀ q ∈ store, q.id = pk → q = p) :
    get_object store pk = none ∧
    track_view store views pk xff ra ua = (.notFound, views) ∧
    inquire store inqs now pk d = (.notFound, inqs) := by
  have hobj : get_object store pk = none :=
    get_object_unavailable hunavail hid
  refine ⟨hobj, ?_, ?_⟩
  · unfold track_view
    rw [hobj]
  · unfold inquire
    rw [hobj]

/-- Witness for C10: listing 102 exists but is unavailable; both engagement
operations answer NotFound and leave their stores unchanged. -/
theorem C10_unavailable_gates_engagement_witness :
    (p102 ∈ [p101, p102] ∧ p102.is_available = false ∧
      ∀ q ∈ [p101, p102], q.id = 102 → q = p102) ∧
    (get_object [p101, p102] 102 = none ∧
     track_view [p101, p102] [] 102 none "10.0.0.5" "agentA" =
       (.notFound, []) ∧
     inquire [p101, p102] [] 5 102
       (⟨"Bob", "bob@x.mw", "099000000", "hello"⟩ : InquiryInput) =
       (.notFound, [])) :=
  ⟨⟨by decide, by decide, by decide⟩,
   C10_unavailable_gates_engagement [p101, p102] [] [] 5 102 none
     "10.0.0.5" "agentA" ⟨"Bob", "bob@x.mw", "099000000", "hello"⟩ p102
     (by decide) (by decide) (by decide)⟩

theorem applyBound_skip_some_empty (fn : String) (fv : Property → Int)
    (cmp : Int → Int → Bool) (qs : List Property) :
    applyBound fn fv cmp (some "") qs = .ok qs :=
  applyBound_skip _ rfl

theorem applyBound_skip_none (fn : String) (fv : Property → Int)
    (cmp : Int → Int → Bool) (qs : List Property) :
    applyBound fn fv cmp none qs = .ok qs :=
  applyBound_skip _ rfl

/-- C3 counterexample: the sort key "banana" is outside
\x7bprice, created_at, rating, area\x7d, yet the request is not rejected as
a validation failure — it succeeds, ordered exactly as if no ordering had
been supplied (default created_at descending), contradicting the claim that
an unsupported sort key is never silently replaced by the default. -/
theorem C3_counterexample_invalid_ordering_accepted :
    list_properties [p101, p103] { ordering := some "banana" } =
      .ok [p103, p101] ∧
    list_properties [p101, p103] { ordering := some "banana" } =
      list_properties [p101, p103] { ordering := none } :=
  ⟨rfl, rfl⟩

/-- C3 (amended): a search request whose ordering parameter names only
unsupported fields is not rejected; the invalid terms are silently dropped
and the default created_at-descending order applies — the result is the one
the same request yields with no ordering parameter at all. -/
theorem C3_amended_invalid_ordering_defaults (store : List Property)
    (params : SearchParams) (s : String) (ho : params.ordering = some s)
    (hinv : ∀ f ∈ (splitOnChar (Char.ofNat 44) s).map trimStr,
      (stripDash f).1 ∉ ordering_fields) :
    list_properties store params =
      list_properties store { params with ordering := none } := by
  rcases params with ⟨c, pt, bd, bt, ag, ft, vf, sterm, od, mnp, mxp, mna, mxa⟩
  simp only at ho
  subst ho
  unfold list_properties get_queryset searchFilter filtersetFilter
  dsimp only
  rw [get_ordering_all_invalid s hinv, get_ordering_none]

/-- Witness for C3 (amended): the all-invalid ordering value "banana". -/
theorem C3_amended_invalid_ordering_defaults_witness :
    (∀ f ∈ (splitOnChar (Char.ofNat 44) "banana").map trimStr,
      (stripDash f).1 ∉ ordering_fields) ∧
    list_properties [p101, p103] { ordering := some "banana" } =
      list_properties [p101, p103]
        { ({ ordering := some "banana" } : SearchParams) with
          ordering := none } :=
  ⟨by decide, C3_amended_invalid_ordering_defaults [p101, p103]
    { ordering := some "banana" } "banana" rfl (by decide)⟩

/-- C4 counterexample: `min_price` supplied as the empty string is not a
well-formed numeric value, yet the request is not rejected with a
validation error — the truthiness guard silently skips the bound and the
search succeeds as if it had been omitted, contradicting the claim that a
malformed bound is never silently ignored. -/
theorem C4_counterexample_empty_bound_ignored :
    get_queryset [p101] { min_price := some "" } = .ok [p101] ∧
    list_properties [p101] { min_price := some "" } = .ok [p101] :=
  ⟨rfl, rfl⟩

/-- C4 (amended): a range bound supplied as the empty string is silently
ignored (the result is that of the same request without the bound), while a
non-empty bound the query layer cannot convert makes the whole query fail
with an unhandled conversion error — not with a per-field validation
response. -/
theorem C4_amended_malformed_bounds (store : List Property)
    (params : SearchParams) :
    ((params.min_price = some "" → get_queryset store params =
        get_queryset store { params with min_price := none }) ∧
     (params.max_price = some "" → get_queryset store params =
        get_queryset store { params with max_price := none }) ∧
     (params.min_area = some "" → get_queryset store params =
        get_queryset store { params with min_area := none }) ∧
     (params.max_area = some "" → get_queryset store params =
        get_queryset store { params with max_area := none })) ∧
    ((∃ b ∈ [params.min_price, params.max_price, params.min_area,
        params.max_area], ∃ s, b = some s ∧ s ≠ "" ∧ parseIntStr s = none) →
      ∃ e, get_queryset store params = .error e) := by
  constructor
  · rcases params with ⟨c, pt, bd, bt, ag, ft, vf, sterm, od, mnp, mxp,
      mna, mxa⟩
    refine ⟨?_, ?_, ?_, ?_⟩ <;> intro hb <;> simp only at hb <;> subst hb <;>
      · unfold get_queryset
        dsimp only
        simp only [applyBound_skip_some_empty, applyBound_skip_none]
  · rintro ⟨b, hb, s, rfl, hsne, hnone⟩
    cases hq : get_queryset store params with
    | ok r =>
      exact absurd hnone (get_queryset_ok_parses hq (some s) hb s rfl hsne)
    | error e => exact ⟨e, rfl⟩

/-- Witness for C4 (amended): the empty bound is ignored; the bound "abc"
errors the query. -/
theorem C4_amended_malformed_bounds_witness :
    (get_queryset [p101] { min_price := some "" } =
      get_queryset [p101]
        { ({ min_price := some "" } : SearchParams) with
          min_price := none }) ∧
    (∃ e, get_queryset [p101] { min_price := some "abc" } = .error e) :=
  ⟨(C4_amended_malformed_bounds [p101] { min_price := some "" }).1.1 rfl,
   (C4_amended_malformed_bounds [p101] { min_price := some "abc" }).2
     ⟨some "abc", by decide, "abc", rfl, by decide, by decide⟩⟩

/-- C9: under every interleaving of two concurrent `track_view` calls for
the same (listing, ip) pair starting from a state with no record for the
pair, at most one `PropertyView` row exists afterwards, neither caller is
ever answered with an error, and when both calls have completed exactly one
row exists.  The storage layer's atomic insert under the (property, ip)
uniqueness constraint is modelled from the spec, the model file being
absent from the sources. -/
theorem C9_concurrent_tracking_single_record (pid : Nat)
    (ip uaA uaB : String) (views0 : List PropertyView) (sched : List Bool)
    (hfresh : countPair views0 pid ip = 0) :
    countPair (runRace pid ip uaA uaB ⟨views0, .start, .start⟩
        sched).views pid ip ≤ 1 ∧
    (runRace pid ip uaA uaB ⟨views0, .start, .start⟩ sched).first ≠
      CallPhase.failed ∧
    (runRace pid ip uaA uaB ⟨views0, .start, .start⟩ sched).second ≠
      CallPhase.failed ∧
    ((runRace pid ip uaA uaB ⟨views0, .start, .start⟩ sched).first =
        CallPhase.succeeded →
      (runRace pid ip uaA uaB ⟨views0, .start, .start⟩ sched).second =
        CallPhase.succeeded →
      countPair (runRace pid ip uaA uaB ⟨views0, .start, .start⟩
        sched).views pid ip = 1) := by
  have hinit : raceInv pid ip ⟨views0, .start, .start⟩ := by
    refine ⟨?_, trivial, trivial⟩
    rw [hfresh]
    exact Nat.zero_le 1
  obtain ⟨hc, h1, h2⟩ :=
    raceInv_run pid ip uaA uaB sched ⟨views0, .start, .start⟩ hinit
  refine ⟨hc, ?_, ?_, ?_⟩
  · intro hf
    rw [hf] at h1
    exact h1.elim
  · intro hf
    rw [hf] at h2
    exact h2.elim
  · intro hA hB
    rw [hA] at h1
    have : 1 ≤ countPair (runRace pid ip uaA uaB
        ⟨views0, .start, .start⟩ sched).views pid ip := h1
    omega

/-- Witness for C9: the racy schedule in which both calls read before
either writes still leaves exactly one record, both calls succeeding. -/
theorem C9_concurrent_tracking_single_record_witness :
    countPair (runRace 101 "10.0.0.5" "agentA" "agentB"
        ⟨[], .start, .start⟩ [true, false, true, false]).views
      101 "10.0.0.5" ≤ 1 ∧
    (runRace 101 "10.0.0.5" "agentA" "agentB" ⟨[], .start, .start⟩
      [true, false, true, false]).first ≠ CallPhase.failed ∧
    (runRace 101 "10.0.0.5" "agentA" "agentB" ⟨[], .start, .start⟩
      [true, false, true, false]).second ≠ CallPhase.failed ∧
    ((runRace 101 "10.0.0.5" "agentA" "agentB" ⟨[], .start, .start⟩
        [true, false, true, false]).first = CallPhase.succeeded →
      (runRace 101 "10.0.0.5" "agentA" "agentB" ⟨[], .start, .start⟩
        [true, false, true, false]).second = CallPhase.succeeded →
      countPair (runRace 101 "10.0.0.5" "agentA" "agentB"
        ⟨[], .start, .start⟩ [true, false, true, false]).views
        101 "10.0.0.5" = 1) :=
  C9_concurrent_tracking_single_record 101 "10.0.0.5" "agentA" "agentB"
    [] [true, false, true, false] rfl
